import Mathlib

/-!
# Verification of the gantt-app task store and timeline tick selection

A shallow embedding of `src/js/store.js` (class `Store`) and of the tick
interval step function of `src/js/gantt.js` (`Gantt.chooseTickInterval`),
together with theorems settling the frozen claims about the history
mechanism, id assignment, progress handling, subscriber notification,
the critical-path heuristic, no-op semantics on unknown ids and import.

Modelling conventions:
* JavaScript numbers used as ids and counters are `Nat`; the history cursor
  `historyIndex` is `Int` because the source uses `-1` as the empty marker.
* Timestamps (`Date.now()`, ISO strings from `new Date()`) enter through an
  explicit `Env` record, since the store reads the clock only to build task
  defaults and snapshot timestamps.
* `JSON.parse(JSON.stringify(x))` deep copies are the identity on our pure
  values, but the snapshot/restore structure of the source is kept.
* A JS `Set` is an insertion-ordered duplicate-free list: `add` appends when
  absent, `delete` filters, `new Set(array)` deduplicates keeping the first
  occurrence.
* `notify` fan-out to subscriber callbacks is recorded in an `events` log of
  action tags on the store; the callback error behaviour is modelled
  separately (see `notifyFanout`).
-/

namespace GanttApp

/-- A task record as built by `Store.add` in `src/js/store.js`.
The JS field `end` is named `end_` (`end` is a Lean keyword); `task` is the
display title, as in the source. -/
structure Task where
  id : Nat
  type : String
  task : String
  start : String
  end_ : String
  progress : Int
  priority : String
  milestone : Bool
  owner : String
  dependencies : List Nat
  color : String
deriving DecidableEq, Repr

/-- The deep-copied part of a history snapshot: `{data, nextId, criticalTasks}`
exactly as `Store.saveState` captures it. -/
structure CoreState where
  data : List Task
  nextId : Nat
  criticalTasks : List Nat
deriving DecidableEq, Repr

/-- One history entry `{state, description, timestamp}`. -/
structure HistoryEntry where
  state : CoreState
  description : String
  timestamp : Nat
deriving DecidableEq, Repr

/-- The store state: the fields of class `Store` that the modelled
operations read or write. `events` logs the action tags passed to
`notify`, in call order. -/
structure Store where
  data : List Task
  nextId : Nat
  types : List (String × String)
  history : List HistoryEntry
  historyIndex : Int
  maxHistory : Nat
  criticalTasks : List Nat
  projectName : String
  events : List String
deriving DecidableEq, Repr

/-- Clock values an operation may read: `Date.now()` as `now`, and the two
ISO strings `new Date().toISOString().slice(0,16)` and
`new Date(Date.now() + 3600000).toISOString().slice(0,16)` used as the
default `start` and `end` of `Store.add`. -/
structure Env where
  now : Nat
  nowStart : String
  nowEnd : String
deriving DecidableEq, Repr

/-- JS `a || b` on an optional string: absent and `""` are falsy. -/
def jsOrS (a : Option String) (b : String) : String :=
  match a with
  | none => b
  | some v => if v = "" then b else v

/-- JS `a || b` on an optional number: absent and `0` are falsy. -/
def jsOrI (a : Option Int) (b : Int) : Int :=
  match a with
  | none => b
  | some v => if v = 0 then b else v

/-- JS `a || b` on an optional boolean: absent and `false` are falsy. -/
def jsOrB (a : Option Bool) (b : Bool) : Bool :=
  match a with
  | none => b
  | some v => if v then v else b

/-- JS truthiness of an optional string (used by guards such as
`if (fields.type && !fields.color)`). -/
def truthyS (a : Option String) : Bool :=
  match a with
  | none => false
  | some v => v ≠ ""

/-- Object property lookup `types[name]` on the type registry, which is a
string-keyed object modelled as an insertion-ordered association list. -/
def lookupType (types : List (String × String)) (name : String) : Option String :=
  (types.find? (fun p => p.1 = name)).map (fun p => p.2)

/-- `DEFAULT_TYPES` from `src/js/store.js`. -/
def DEFAULT_TYPES : List (String × String) :=
  [("Транспорт", "#5da7ff"),
   ("Разгрузка", "#90be6d"),
   ("Погрузка", "#80ffea"),
   ("Монтаж", "#ffd166"),
   ("Демонтаж", "#ff6b6b"),
   ("Пуско-наладка", "#f9c74f"),
   ("Уборка", "#bdb2ff"),
   ("Репетиция", "#a0c4ff"),
   ("Веха", "#d56cff")]

/-- The `Store` constructor with no persisted `localStorage` state: empty
data, `nextId = 1`, default types, empty history with cursor `-1`,
`maxHistory = 50`, empty critical set, default project name. -/
def Store.init : Store :=
  { data := []
    nextId := 1
    types := DEFAULT_TYPES
    history := []
    historyIndex := -1
    maxHistory := 50
    criticalTasks := []
    projectName := "Мой проект"
    events := [] }

/-- The live `{data, nextId, criticalTasks}` triple that `saveState`
snapshots and `restoreState` writes back. -/
def Store.coreState (s : Store) : CoreState :=
  { data := s.data, nextId := s.nextId, criticalTasks := s.criticalTasks }

/-- `Store.saveState`: snapshot the live state; if the cursor is not at the
end, truncate the future (`slice(0, historyIndex + 1)`); push the snapshot;
then either evict the oldest entry (`shift()`, cursor untouched) when the
capacity is exceeded, or advance the cursor. Finally `notify` with
`history-change`. -/
def Store.saveState (s : Store) (description : String) (now : Nat) : Store :=
  let state := s.coreState
  let hist :=
    if s.historyIndex < (s.history.length : Int) - 1 then
      s.history.take (s.historyIndex + 1).toNat
    else s.history
  let hist2 := hist ++ [{ state := state, description := description, timestamp := now }]
  if s.maxHistory < hist2.length then
    { s with history := hist2.drop 1, events := s.events ++ ["history-change"] }
  else
    { s with history := hist2, historyIndex := s.historyIndex + 1,
             events := s.events ++ ["history-change"] }

/-- `new Set(array)`: deduplicate keeping first occurrences. -/
def jsSet (l : List Nat) : List Nat :=
  l.foldl (fun acc x => if x ∈ acc then acc else acc ++ [x]) []

/-- `Store.restoreState`: write a snapshot back over the live state
(`data` deep-copied, `criticalTasks` rebuilt as `new Set(...)`). -/
def Store.restoreState (s : Store) (state : CoreState) : Store :=
  { s with data := state.data, nextId := state.nextId,
           criticalTasks := jsSet state.criticalTasks }

/-- `Store.canUndo`: `historyIndex > 0`. -/
def Store.canUndo (s : Store) : Bool :=
  0 < s.historyIndex

/-- `Store.canRedo`: `historyIndex < history.length - 1`. -/
def Store.canRedo (s : Store) : Bool :=
  s.historyIndex < (s.history.length : Int) - 1

/-- `Store.undo`: when `historyIndex > 0`, decrement the cursor, restore the
snapshot there, notify `undo` and return `true`; otherwise return `false`.
The cursor invariant keeps the index in range, so the out-of-range default
of the lookup is never reached (in JS it would be a crash on `undefined`). -/
def Store.undo (s : Store) : Bool × Store :=
  if 0 < s.historyIndex then
    let s1 := { s with historyIndex := s.historyIndex - 1 }
    let st := ((s1.history[s1.historyIndex.toNat]?).map HistoryEntry.state).getD s1.coreState
    (true, { s1.restoreState st with events := s.events ++ ["undo"] })
  else (false, s)

/-- `Store.redo`: when `historyIndex < history.length - 1`, increment the
cursor, restore the snapshot there, notify `redo` and return `true`;
otherwise return `false`. -/
def Store.redo (s : Store) : Bool × Store :=
  if s.historyIndex < (s.history.length : Int) - 1 then
    let s1 := { s with historyIndex := s.historyIndex + 1 }
    let st := ((s1.history[s1.historyIndex.toNat]?).map HistoryEntry.state).getD s1.coreState
    (true, { s1.restoreState st with events := s.events ++ ["redo"] })
  else (false, s)

/-- `Store.getById`: first task with the given id (`Array.find`). -/
def Store.getById (s : Store) (id : Nat) : Option Task :=
  s.data.find? (fun t => t.id = id)

/-- The argument object of `Store.add`: any subset of the task fields may be
present (the id is always assigned by the store, so it is not an input). -/
structure TaskInput where
  type : Option String := none
  task : Option String := none
  start : Option String := none
  end_ : Option String := none
  progress : Option Int := none
  priority : Option String := none
  milestone : Option Bool := none
  owner : Option String := none
  dependencies : Option (List Nat) := none
  color : Option String := none
deriving DecidableEq, Repr

/-- `Store.add`: build the new task with `||` defaults field by field
(`id = nextId++`; note `dependencies || []` keeps a present empty list,
and the color chain is `task.color || types[task.type] || the fallback`
where the registry is indexed with the raw, not defaulted, input type),
push it, `saveState`, notify `add`, return the new task. -/
def Store.add (s : Store) (input : TaskInput) (env : Env) : Task × Store :=
  let newTask : Task :=
    { id := s.nextId
      type := jsOrS input.type ""
      task := jsOrS input.task "Новая работа"
      start := jsOrS input.start env.nowStart
      end_ := jsOrS input.end_ env.nowEnd
      progress := jsOrI input.progress 0
      priority := jsOrS input.priority "medium"
      milestone := jsOrB input.milestone false
      owner := jsOrS input.owner ""
      dependencies := input.dependencies.getD []
      color := jsOrS input.color
        (jsOrS (input.type.bind (fun ty => lookupType s.types ty)) "#5da7ff") }
  let s1 := { s with data := s.data ++ [newTask], nextId := s.nextId + 1 }
  let s2 := s1.saveState "Добавление работы" env.now
  (newTask, { s2 with events := s2.events ++ ["add"] })

/-- The patch object of `Store.update`: any subset of the mutable task
fields (`Object.assign` overwrites exactly the present ones). -/
structure Fields where
  type : Option String := none
  task : Option String := none
  start : Option String := none
  end_ : Option String := none
  progress : Option Int := none
  priority : Option String := none
  milestone : Option Bool := none
  owner : Option String := none
  dependencies : Option (List Nat) := none
  color : Option String := none
deriving DecidableEq, Repr

/-- `Object.assign(task, fields)` followed by the conditional color
recomputation `if (fields.type && !fields.color) task.color =
types[fields.type] || task.color`. -/
def applyFields (types : List (String × String)) (fields : Fields) (t : Task) : Task :=
  let t2 : Task :=
    { t with
      type := fields.type.getD t.type
      task := fields.task.getD t.task
      start := fields.start.getD t.start
      end_ := fields.end_.getD t.end_
      progress := fields.progress.getD t.progress
      priority := fields.priority.getD t.priority
      milestone := fields.milestone.getD t.milestone
      owner := fields.owner.getD t.owner
      dependencies := fields.dependencies.getD t.dependencies
      color := fields.color.getD t.color }
  if truthyS fields.type && !(truthyS fields.color) then
    { t2 with color := jsOrS (lookupType types (fields.type.getD "")) t2.color }
  else t2

/-- In-place mutation of the first task with the given id (the source finds
the task object with `getById` and mutates it inside `data`). -/
def updateById (l : List Task) (id : Nat) (f : Task → Task) : List Task :=
  match l with
  | [] => []
  | t :: ts => if t.id = id then f t :: ts else t :: updateById ts id f

/-- `Store.update`: look up by id; absent gives `null` with the store
untouched; present merges the fields, recomputes the color when needed,
saves history and notifies `update` with the mutated task. -/
def Store.update (s : Store) (id : Nat) (fields : Fields) (env : Env) :
    Option Task × Store :=
  match s.getById id with
  | none => (none, s)
  | some t =>
    let t2 := applyFields s.types fields t
    let s1 := { s with data := updateById s.data id (applyFields s.types fields) }
    let s2 := s1.saveState "Обновление работы" env.now
    (some t2, { s2 with events := s2.events ++ ["update"] })

/-- `splice` removal of the first task with the given id
(`findIndex` + `splice(index, 1)`). -/
def removeById (l : List Task) (id : Nat) : List Task :=
  match l with
  | [] => []
  | t :: ts => if t.id = id then ts else t :: removeById ts id

/-- `Store.delete`: absent id gives `null` with the store untouched;
otherwise remove the task, drop its id from the critical set
(`criticalTasks.delete(id)`), save history and notify `delete`. -/
def Store.delete (s : Store) (id : Nat) (env : Env) : Option Task × Store :=
  match s.getById id with
  | none => (none, s)
  | some t =>
    let s1 := { s with data := removeById s.data id,
                       criticalTasks := s.criticalTasks.filter (fun c => c ≠ id) }
    let s2 := s1.saveState "Удаление работы" env.now
    (some t, { s2 with events := s2.events ++ ["delete"] })

/-- `Set.add`: append when not yet present. -/
def addSet (l : List Nat) (x : Nat) : List Nat :=
  if x ∈ l then l else l ++ [x]

/-- First pass of `calculateCriticalPath`: add the id of every task with
priority `high`. -/
def highStep (acc : List Nat) (t : Task) : List Nat :=
  if t.priority = "high" then addSet acc t.id else acc

/-- One dependency reference of the second pass of `calculateCriticalPath`:
resolve it with `getById` (`parseInt` is the identity here because
dependency ids are numeric) and, when a task exists, add the id of the
resolved task. -/
def depRef (data : List Task) (a : List Nat) (d : Nat) : List Nat :=
  match data.find? (fun u => u.id = d) with
  | some dt => addSet a dt.id
  | none => a

/-- Second pass of `calculateCriticalPath` for one task: walk its
`dependencies` list. -/
def depsOfTask (data : List Task) (acc : List Nat) (t : Task) : List Nat :=
  t.dependencies.foldl (depRef data) acc

/-- The body of `Store.calculateCriticalPath`, which reads only `data`:
clear the set, run the high-priority pass, then the dependency pass. -/
def criticalOf (data : List Task) : List Nat :=
  data.foldl (depsOfTask data) (data.foldl highStep [])

/-- `Store.calculateCriticalPath`: recompute `criticalTasks` from `data` and
return `Array.from` of the set; the method deliberately does not call
`notify` and never touches the history. -/
def Store.calculateCriticalPath (s : Store) : List Nat × Store :=
  let ids := criticalOf s.data
  (ids, { s with criticalTasks := ids })

/-- A parsed import blob in the current object format
`{projectName?, types?, data?}` (the legacy plain-array format and
`JSON.parse` failures on malformed strings are outside this model, which
covers the successful object-shaped path of `Store.importData`). -/
structure ImportBlob where
  projectName : Option String := none
  types : Option (List (String × String)) := none
  data : Option (List Task) := none
deriving DecidableEq, Repr

/-- Object spread `{...base, ...extra}`: keys of `extra` overwrite in place
or are appended in order. -/
def objAssign (base extra : List (String × String)) : List (String × String) :=
  extra.foldl
    (fun m kv =>
      if m.any (fun p => p.1 = kv.1) then
        m.map (fun p => if p.1 = kv.1 then (p.1, kv.2) else p)
      else m ++ [kv])
    base

/-- The three conditional overwrites at the head of `Store.importData`:
project name when truthy, types merged over the defaults, data replaced
with `nextId = max(ids, 0) + 1` when a data array is present. -/
def Store.importApply (s : Store) (imp : ImportBlob) : Store :=
  let s1 :=
    match imp.projectName with
    | some p => if p = "" then s else { s with projectName := p }
    | none => s
  let s2 :=
    match imp.types with
    | some ts => { s1 with types := objAssign DEFAULT_TYPES ts }
    | none => s1
  match imp.data with
  | some d =>
    { s2 with data := d, nextId := (d.map Task.id).foldl max 0 + 1 }
  | none => s2

/-- `Store.importData` on an already-parsed object blob: apply the
conditional overwrites, then reset the history to empty with cursor `-1`,
`saveState` and notify `import`; this path returns `true`. -/
def Store.importData (s : Store) (imp : ImportBlob) (env : Env) : Bool × Store :=
  let s3 := s.importApply imp
  let s4 := { s3 with history := [], historyIndex := -1 }
  let s5 := s4.saveState "Импорт данных" env.now
  (true, { s5 with events := s5.events ++ ["import"] })

/-- `Gantt.chooseTickInterval` from `src/js/gantt.js`. -/
def chooseTickInterval (spanMinutes : Int) : Int :=
  if spanMinutes ≤ 480 then 30
  else if spanMinutes ≤ 1440 then 60
  else if spanMinutes ≤ 2880 then 120
  else if spanMinutes ≤ 10080 then 720
  else 1440

/-- A subscriber callback for the purposes of the fan-out model: an
identifying tag plus whether calling it throws. -/
structure Subscriber where
  id : Nat
  throws : Bool
deriving DecidableEq, Repr

/-- `Store.notify` runs `subscribers.forEach(cb => cb(action, data))` with
no `try`/`catch`, so an exception from a callback propagates out of
`forEach` and aborts the iteration. This models the dispatch over a
subscriber list: the result is the list of subscribers actually invoked,
in order, and whether an exception escaped the fan-out. -/
def notifyFanout (subs : List Subscriber) : List Subscriber × Bool :=
  match subs with
  | [] => ([], false)
  | cb :: rest =>
    if cb.throws then ([cb], true)
    else
      let r := notifyFanout rest
      (cb :: r.1, r.2)

/-- One store mutation of the kind quantified over by the history laws:
`add`, `update` or `delete`, each carrying the clock values of the moment
it runs. -/
inductive Op where
  | add (input : TaskInput) (env : Env)
  | update (id : Nat) (fields : Fields) (env : Env)
  | del (id : Nat) (env : Env)
deriving DecidableEq, Repr

/-- Run one mutation, discarding the returned task. -/
def applyOp (s : Store) (op : Op) : Store :=
  match op with
  | .add input env => (s.add input env).2
  | .update id fields env => (s.update id fields env).2
  | .del id env => (s.delete id env).2

/-- Run a sequence of mutations from a starting store. -/
def applyOps (s : Store) (ops : List Op) : Store :=
  ops.foldl applyOp s

/-- The ids handed out by the `add` calls of a run, in order. -/
def assignedIds (s : Store) : List Op → List Nat
  | [] => []
  | op :: rest =>
    (match op with
     | .add input env => [(s.add input env).1.id]
     | _ => []) ++ assignedIds (applyOp s op) rest

/-- A fixed clock used by the concrete witnesses. -/
def envC : Env :=
  { now := 0, nowStart := "2024-01-01T00:00", nowEnd := "2024-01-01T01:00" }

/-! ## Structural lemmas about `saveState` -/

/-- Length of the pruned history inside `saveState`, under the cursor
bounds. -/
theorem pruned_length (s : Store)
    (h1 : -1 ≤ s.historyIndex) (h2 : s.historyIndex < (s.history.length : Int)) :
    (if s.historyIndex < (s.history.length : Int) - 1 then
        s.history.take (s.historyIndex + 1).toNat
      else s.history).length = (s.historyIndex + 1).toNat := by
  split
  · rename_i h
    rw [List.length_take]
    omega
  · rename_i h
    omega

/-- `saveState` leaves the live state, the capacity, the type registry and
the project name untouched. -/
theorem saveState_fields (s : Store) (d : String) (n : Nat) :
    (s.saveState d n).coreState = s.coreState ∧
    (s.saveState d n).maxHistory = s.maxHistory ∧
    (s.saveState d n).types = s.types ∧
    (s.saveState d n).nextId = s.nextId := by
  refine ⟨?_, ?_, ?_, ?_⟩ <;>
    (simp only [Store.saveState]; split <;> split <;> rfl)

/-- The append-or-evict step of `saveState`, resolved: afterwards the cursor
sits at the last entry, that entry is the snapshot just written, every
entry was either already there or is the new snapshot, and the length stays
within the capacity. -/
theorem saveState_spec (s : Store) (d : String) (n : Nat)
    (h1 : -1 ≤ s.historyIndex) (h2 : s.historyIndex < (s.history.length : Int))
    (h3 : 0 < s.maxHistory) :
    (s.saveState d n).historyIndex = ((s.saveState d n).history.length : Int) - 1 ∧
    (s.saveState d n).history[((s.saveState d n).historyIndex).toNat]? =
      some { state := s.coreState, description := d, timestamp := n } ∧
    (∀ e ∈ (s.saveState d n).history,
      e ∈ s.history ∨ e = { state := s.coreState, description := d, timestamp := n }) ∧
    (s.history.length ≤ s.maxHistory → (s.saveState d n).history.length ≤ s.maxHistory) := by
  have hl := pruned_length s h1 h2
  unfold Store.saveState
  simp only
  set P := (if s.historyIndex < (s.history.length : Int) - 1 then
      s.history.take (s.historyIndex + 1).toNat
    else s.history) with hP
  have hPmem : ∀ e ∈ P, e ∈ s.history := by
    intro e he
    rw [hP] at he
    revert he
    split
    · exact fun he => List.mem_of_mem_take he
    · exact fun he => he
  set E : HistoryEntry := { state := s.coreState, description := d, timestamp := n } with hE
  by_cases hov : s.maxHistory < (P ++ [E]).length
  · rw [if_pos hov]
    have hlen : (P ++ [E]).length = (s.historyIndex + 1).toNat + 1 := by
      simp [hl]
    have hidx : 0 ≤ s.historyIndex := by omega
    refine ⟨?_, ?_, ?_, ?_⟩
    · simp only [List.length_drop, hlen]
      omega
    · rw [List.getElem?_drop]
      have h1x : 1 + s.historyIndex.toNat = P.length := by
        rw [hl]; omega
      rw [h1x, List.getElem?_concat_length]
    · intro e he
      have : e ∈ P ++ [E] := List.mem_of_mem_drop he
      rcases List.mem_append.mp this with hmem | hmem
      · exact Or.inl (hPmem e hmem)
      · exact Or.inr (List.mem_singleton.mp hmem)
    · intro hcap
      simp only [List.length_drop, hlen]
      omega
  · rw [if_neg hov]
    have hlen : (P ++ [E]).length = (s.historyIndex + 1).toNat + 1 := by
      simp [hl]
    refine ⟨?_, ?_, ?_, ?_⟩
    · simp only [hlen]
      omega
    · have hx : (s.historyIndex + 1).toNat = P.length := hl.symm
      simp only
      rw [show (s.historyIndex + 1).toNat = P.length from hx,
        List.getElem?_concat_length]
    · intro e he
      rcases List.mem_append.mp he with hmem | hmem
      · exact Or.inl (hPmem e hmem)
      · exact Or.inr (List.mem_singleton.mp hmem)
    · intro _
      show (P ++ [E]).length ≤ s.maxHistory
      omega

/-! ## `jsSet` on duplicate-free lists -/

/-- The `new Set(array)` fold from an accumulator that is already a
duplicate-free prefix disjoint from the rest simply appends everything. -/
theorem jsSet_fold_of_nodup (l : List Nat) :
    ∀ acc : List Nat, (acc ++ l).Nodup →
      l.foldl (fun a x => if x ∈ a then a else a ++ [x]) acc = acc ++ l := by
  induction l with
  | nil => intro acc _; simp
  | cons x xs ih =>
    intro acc h
    have hx : x ∉ acc := by
      intro hmem
      exact (List.disjoint_of_nodup_append h) hmem (by simp)
    have h2 : ((acc ++ [x]) ++ xs).Nodup := by
      simpa [List.append_assoc] using h
    simp only [List.foldl_cons, if_neg hx]
    rw [ih (acc ++ [x]) h2]
    simp

/-- `new Set(array)` is the identity on a duplicate-free array. -/
theorem jsSet_eq_self {l : List Nat} (h : l.Nodup) : jsSet l = l := by
  unfold jsSet
  simpa using jsSet_fold_of_nodup l [] (by simpa using h)

/-! ## `undo` and `redo`, resolved -/

/-- Successful `undo`: decrement the cursor and restore the snapshot
found there. -/
theorem undo_spec (s : Store) (e : HistoryEntry) (hc : 0 < s.historyIndex)
    (he : s.history[(s.historyIndex - 1).toNat]? = some e) :
    s.undo = (true,
      { s with data := e.state.data,
               nextId := e.state.nextId,
               historyIndex := s.historyIndex - 1,
               criticalTasks := jsSet e.state.criticalTasks,
               events := s.events ++ ["undo"] }) := by
  unfold Store.undo Store.restoreState
  rw [if_pos hc]
  simp only [he, Option.map_some', Option.getD_some]

/-- Failing `undo`: the store is returned untouched with `false`. -/
theorem undo_noop (s : Store) (hc : ¬ 0 < s.historyIndex) :
    s.undo = (false, s) := by
  unfold Store.undo
  rw [if_neg hc]

/-- Successful `redo`: increment the cursor and restore the snapshot
found there. -/
theorem redo_spec (s : Store) (e : HistoryEntry)
    (hc : s.historyIndex < (s.history.length : Int) - 1)
    (he : s.history[(s.historyIndex + 1).toNat]? = some e) :
    s.redo = (true,
      { s with data := e.state.data,
               nextId := e.state.nextId,
               historyIndex := s.historyIndex + 1,
               criticalTasks := jsSet e.state.criticalTasks,
               events := s.events ++ ["redo"] }) := by
  unfold Store.redo Store.restoreState
  rw [if_pos hc]
  simp only [he, Option.map_some', Option.getD_some]

/-- Failing `redo`: the store is returned untouched with `false`. -/
theorem redo_noop (s : Store) (hc : ¬ s.historyIndex < (s.history.length : Int) - 1) :
    s.redo = (false, s) := by
  unfold Store.redo
  rw [if_neg hc]

/-! ## The reachability invariant -/

/-- Invariant maintained by every store reachable from the constructor:
the cursor respects the history bounds, the capacity is the fixed positive
`maxHistory`, the snapshot under the cursor is exactly the live state, and
critical-id lists (live and snapshotted) are duplicate-free, which makes
`new Set(...)` the identity on restore. -/
structure Inv (s : Store) : Prop where
  lb : -1 ≤ s.historyIndex
  ub : s.historyIndex < (s.history.length : Int)
  cap : 0 < s.maxHistory
  lenCap : s.history.length ≤ s.maxHistory
  live : 0 ≤ s.historyIndex →
    (s.history[s.historyIndex.toNat]?).map HistoryEntry.state = some s.coreState
  nodupLive : s.criticalTasks.Nodup
  nodupHist : ∀ e ∈ s.history, e.state.criticalTasks.Nodup

/-- The freshly constructed store satisfies the invariant. -/
theorem inv_init : Inv Store.init := by
  refine ⟨by decide, by decide, by decide, by decide, ?_, by decide, ?_⟩
  · intro h
    simp [Store.init] at h
  · intro e he
    simp [Store.init] at he

/-- The invariant does not look at the `events` log. -/
theorem inv_events {s : Store} (h : Inv s) (ev : List String) :
    Inv { s with events := ev } :=
  ⟨h.lb, h.ub, h.cap, h.lenCap, h.live, h.nodupLive, h.nodupHist⟩

/-- `saveState` establishes the invariant from the cursor bounds alone;
the live snapshot condition holds by construction afterwards. -/
theorem inv_saveState (s : Store) (d : String) (n : Nat)
    (h1 : -1 ≤ s.historyIndex) (h2 : s.historyIndex < (s.history.length : Int))
    (h3 : 0 < s.maxHistory) (h4 : s.history.length ≤ s.maxHistory)
    (h5 : s.criticalTasks.Nodup)
    (h6 : ∀ e ∈ s.history, e.state.criticalTasks.Nodup) :
    Inv (s.saveState d n) := by
  obtain ⟨hcur, htop, hmem, hlen⟩ := saveState_spec s d n h1 h2 h3
  obtain ⟨hcore, hmax, -, -⟩ := saveState_fields s d n
  have hne : 0 < (s.saveState d n).history.length := by
    rcases hx : (s.saveState d n).history with _ | _
    · rw [hx] at htop
      simp at htop
    · simp [hx]
  refine ⟨by omega, by omega, by omega, by omega, ?_, ?_, ?_⟩
  · intro _
    rw [htop, Option.map_some', hcore]
  · rw [show (s.saveState d n).criticalTasks = s.criticalTasks from ?_]
    · exact h5
    · have := congrArg CoreState.criticalTasks hcore
      simpa [Store.coreState] using this
  · intro e he
    rcases hmem e he with hold | hnew
    · exact h6 e hold
    · rw [hnew]
      simpa [Store.coreState] using h5

/-- The common shape of `add`, `update` and `delete`: overwrite the live
triple, `saveState`, append a notification tag. All of it preserves the
invariant provided the new critical list is duplicate-free. -/
theorem inv_mutate (s : Store) (newData : List Task) (newNext : Nat)
    (newCrit : List Nat) (hcrit : newCrit.Nodup) (d : String) (n : Nat)
    (ev : List String) (h : Inv s) :
    Inv { ({ s with data := newData, nextId := newNext, criticalTasks := newCrit } : Store).saveState d n with events := ev } :=
  inv_events (inv_saveState
    { s with data := newData, nextId := newNext, criticalTasks := newCrit }
    d n h.lb h.ub h.cap h.lenCap hcrit h.nodupHist) ev

/-- `add` preserves the invariant. -/
theorem inv_add {s : Store} (h : Inv s) (input : TaskInput) (env : Env) :
    Inv (s.add input env).2 := by
  unfold Store.add
  exact inv_mutate s _ _ s.criticalTasks h.nodupLive _ _ _ h

/-- `update` preserves the invariant. -/
theorem inv_update {s : Store} (h : Inv s) (id : Nat) (fields : Fields)
    (env : Env) : Inv (s.update id fields env).2 := by
  unfold Store.update
  cases hf : s.getById id with
  | none => exact h
  | some t =>
    exact inv_mutate s _ _ s.criticalTasks h.nodupLive _ _ _ h

/-- `delete` preserves the invariant. -/
theorem inv_delete {s : Store} (h : Inv s) (id : Nat) (env : Env) :
    Inv (s.delete id env).2 := by
  unfold Store.delete
  cases hf : s.getById id with
  | none => exact h
  | some t =>
    exact inv_mutate s _ _ (s.criticalTasks.filter (fun c => c ≠ id))
      (h.nodupLive.filter _) _ _ _ h

/-- Every single mutation preserves the invariant. -/
theorem inv_applyOp {s : Store} (h : Inv s) (op : Op) : Inv (applyOp s op) := by
  cases op with
  | add input env => exact inv_add h input env
  | update id fields env => exact inv_update h id fields env
  | del id env => exact inv_delete h id env

/-- Every mutation sequence preserves the invariant. -/
theorem inv_applyOps {s : Store} (h : Inv s) (ops : List Op) :
    Inv (applyOps s ops) := by
  induction ops generalizing s with
  | nil => exact h
  | cons op rest ih => exact ih (inv_applyOp h op)

/-- `undo` preserves the invariant. -/
theorem inv_undo {s : Store} (h : Inv s) : Inv (s.undo).2 := by
  by_cases hc : 0 < s.historyIndex
  · have hlt : (s.historyIndex - 1).toNat < s.history.length := by
      have := h.ub
      omega
    obtain ⟨e, he⟩ : ∃ e, s.history[(s.historyIndex - 1).toNat]? = some e :=
      ⟨_, List.getElem?_eq_getElem hlt⟩
    have hnod : e.state.criticalTasks.Nodup :=
      h.nodupHist e (List.getElem?_mem he)
    rw [undo_spec s e hc he]
    refine ⟨?_, ?_, h.cap, h.lenCap, ?_, ?_, h.nodupHist⟩
    · show -1 ≤ s.historyIndex - 1
      omega
    · show s.historyIndex - 1 < (s.history.length : Int)
      have := h.ub
      omega
    · intro _
      show (s.history[(s.historyIndex - 1).toNat]?).map HistoryEntry.state = some _
      rw [he, Option.map_some', jsSet_eq_self hnod]
      rfl
    · show (jsSet e.state.criticalTasks).Nodup
      rw [jsSet_eq_self hnod]
      exact hnod
  · rw [undo_noop s hc]
    exact h

/-- `redo` preserves the invariant. -/
theorem inv_redo {s : Store} (h : Inv s) : Inv (s.redo).2 := by
  by_cases hc : s.historyIndex < (s.history.length : Int) - 1
  · have hlt : (s.historyIndex + 1).toNat < s.history.length := by
      have := h.lb
      omega
    obtain ⟨e, he⟩ : ∃ e, s.history[(s.historyIndex + 1).toNat]? = some e :=
      ⟨_, List.getElem?_eq_getElem hlt⟩
    have hnod : e.state.criticalTasks.Nodup :=
      h.nodupHist e (List.getElem?_mem he)
    rw [redo_spec s e hc he]
    refine ⟨?_, ?_, h.cap, h.lenCap, ?_, ?_, h.nodupHist⟩
    · show -1 ≤ s.historyIndex + 1
      have := h.lb
      omega
    · show s.historyIndex + 1 < (s.history.length : Int)
      omega
    · intro _
      show (s.history[(s.historyIndex + 1).toNat]?).map HistoryEntry.state = some _
      rw [he, Option.map_some', jsSet_eq_self hnod]
      rfl
    · show (jsSet e.state.criticalTasks).Nodup
      rw [jsSet_eq_self hnod]
      exact hnod
  · rw [redo_noop s hc]
    exact h

/-- Projections of a successful `undo` that do not depend on the snapshot
looked up: the history list, capacity and the decremented cursor. -/
theorem undo_proj (s : Store) (hc : 0 < s.historyIndex) :
    ((s.undo).2).history = s.history ∧
    ((s.undo).2).historyIndex = s.historyIndex - 1 := by
  unfold Store.undo
  rw [if_pos hc]
  exact ⟨rfl, rfl⟩

/-- A `redo` whose guard holds reports success. -/
theorem redo_true (s : Store) (hc : s.historyIndex < (s.history.length : Int) - 1) :
    (s.redo).1 = true := by
  unfold Store.redo
  rw [if_pos hc]

/-- The live state after a successful `redo` is the restored snapshot. -/
theorem redo_core (s : Store) (e : HistoryEntry)
    (hc : s.historyIndex < (s.history.length : Int) - 1)
    (he : s.history[(s.historyIndex + 1).toNat]? = some e) :
    ((s.redo).2).coreState =
      { data := e.state.data, nextId := e.state.nextId,
        criticalTasks := jsSet e.state.criticalTasks } := by
  rw [redo_spec s e hc he]
  rfl

/-- On any store satisfying the invariant, a successful `undo` immediately
followed by `redo` succeeds and lands back on the live state that held
before the `undo`. -/
theorem undo_redo_roundtrip {s : Store} (h : Inv s) (hc : s.canUndo = true) :
    ((s.undo).2.redo).1 = true ∧
    (((s.undo).2.redo).2).coreState = s.coreState := by
  have hidx : 0 < s.historyIndex := by
    simpa [Store.canUndo] using hc
  obtain ⟨e2, he2, hstate⟩ :
      ∃ e, s.history[s.historyIndex.toNat]? = some e ∧
        HistoryEntry.state e = s.coreState :=
    Option.map_eq_some'.mp (h.live (le_of_lt hidx))
  have hnod2 : e2.state.criticalTasks.Nodup :=
    h.nodupHist e2 (List.getElem?_mem he2)
  obtain ⟨huh, hui⟩ := undo_proj s hidx
  have hc2 : ((s.undo).2).historyIndex < (((s.undo).2).history.length : Int) - 1 := by
    rw [huh, hui]
    have := h.ub
    omega
  have he2u : ((s.undo).2).history[(((s.undo).2).historyIndex + 1).toNat]? = some e2 := by
    rw [huh, hui, show s.historyIndex - 1 + 1 = s.historyIndex from by omega]
    exact he2
  refine ⟨redo_true _ hc2, ?_⟩
  rw [redo_core _ e2 hc2 he2u, jsSet_eq_self hnod2, ← hstate]

/-! ## Claim C1: the cursor always lands on the just-written snapshot -/

/-- A store sitting exactly at its capacity, used to exercise the
append-or-evict branch of `saveState`. -/
def evictStore : Store :=
  { Store.init with
      maxHistory := 1
      historyIndex := 0
      history := [{ state := { data := [], nextId := 1, criticalTasks := [] },
                    description := "", timestamp := 0 }] }

/-- C1: after every call to `saveState` (as triggered by add, update, delete
and import), including the append-or-evict step taken at capacity, the
cursor points at the last history entry and `history[historyIndex]` is the
just-written snapshot, whose stored state deep-equals the live state at
that moment. -/
theorem c1_saveState_top_is_live (s : Store) (d : String) (n : Nat)
    (h1 : -1 ≤ s.historyIndex) (h2 : s.historyIndex < (s.history.length : Int))
    (h3 : 0 < s.maxHistory) :
    (s.saveState d n).historyIndex = ((s.saveState d n).history.length : Int) - 1 ∧
    ((s.saveState d n).history[((s.saveState d n).historyIndex).toNat]?).map
      HistoryEntry.state = some ((s.saveState d n).coreState) := by
  obtain ⟨hcur, htop, -, -⟩ := saveState_spec s d n h1 h2 h3
  obtain ⟨hcore, -, -, -⟩ := saveState_fields s d n
  refine ⟨hcur, ?_⟩
  rw [htop, Option.map_some', hcore]

/-- Witness for C1 on a concrete store at capacity, where the eviction
branch runs. -/
theorem c1_witness :
    ((-1 : Int) ≤ evictStore.historyIndex ∧
      evictStore.historyIndex < (evictStore.history.length : Int) ∧
      0 < evictStore.maxHistory) ∧
    ((evictStore.saveState "snap" 7).historyIndex =
        ((evictStore.saveState "snap" 7).history.length : Int) - 1 ∧
      ((evictStore.saveState "snap" 7).history[
          ((evictStore.saveState "snap" 7).historyIndex).toNat]?).map
        HistoryEntry.state = some ((evictStore.saveState "snap" 7).coreState)) :=
  ⟨⟨by decide, by decide, by decide⟩,
    c1_saveState_top_is_live evictStore "snap" 7 (by decide) (by decide) (by decide)⟩

/-! ## Claim C2: undo then redo restores the pre-undo state -/

/-- C2: for every sequence of `add`/`update`/`delete` operations from the
fresh store, a successful `undo` followed immediately by `redo` succeeds
and restores a store state (task list, next id, critical set) deep-equal
to the one that held just before the `undo`. -/
theorem c2_undo_redo_restores (ops : List Op)
    (h : (applyOps Store.init ops).canUndo = true) :
    (((applyOps Store.init ops).undo).2.redo).1 = true ∧
    ((((applyOps Store.init ops).undo).2.redo).2).coreState =
      (applyOps Store.init ops).coreState :=
  undo_redo_roundtrip (inv_applyOps inv_init ops) h

/-- Witness for C2 on the two-element add trace. -/
theorem c2_witness :
    (applyOps Store.init [Op.add {} envC, Op.add {} envC]).canUndo = true ∧
    ((((applyOps Store.init [Op.add {} envC, Op.add {} envC]).undo).2.redo).1 = true ∧
      ((((applyOps Store.init [Op.add {} envC, Op.add {} envC]).undo).2.redo).2).coreState =
        (applyOps Store.init [Op.add {} envC, Op.add {} envC]).coreState) :=
  ⟨by decide, c2_undo_redo_restores [Op.add {} envC, Op.add {} envC] (by decide)⟩

/-! ## Claim C3: a mutation after undo prunes the redo branch -/

/-- `canRedo` ignores the notification log. -/
theorem canRedo_events (t : Store) (ev : List String) :
    ({ t with events := ev } : Store).canRedo = t.canRedo := rfl

/-- Right after any `saveState` the cursor is at the end, so `canRedo`
is false. -/
theorem saveState_canRedo (t : Store) (d : String) (n : Nat)
    (h1 : -1 ≤ t.historyIndex) (h2 : t.historyIndex < (t.history.length : Int))
    (h3 : 0 < t.maxHistory) :
    (t.saveState d n).canRedo = false := by
  obtain ⟨hcur, -, -, -⟩ := saveState_spec t d n h1 h2 h3
  unfold Store.canRedo
  rw [hcur]
  simp

/-- After `add` the cursor is at the end of the history: nothing to redo. -/
theorem canRedo_after_add (s : Store) (input : TaskInput) (env : Env)
    (h1 : -1 ≤ s.historyIndex) (h2 : s.historyIndex < (s.history.length : Int))
    (h3 : 0 < s.maxHistory) :
    (s.add input env).2.canRedo = false := by
  unfold Store.add
  rw [canRedo_events]
  exact saveState_canRedo _ _ _ h1 h2 h3

/-- C3: on a reachable store, after one (or more) successful `undo` calls, a
mutating `add` discards all snapshots after the cursor: `canRedo` becomes
false and an immediately following `redo` returns false. -/
theorem c3_add_after_undo_prunes_redo (s : Store) (h : Inv s)
    (hcu : s.canUndo = true) (input : TaskInput) (env : Env) :
    (((s.undo).2.add input env).2.canRedo = false) ∧
    ((((s.undo).2.add input env).2.redo).1 = false) := by
  have hu : Inv (s.undo).2 := inv_undo h
  have hcr : ((s.undo).2.add input env).2.canRedo = false :=
    canRedo_after_add _ input env hu.lb hu.ub hu.cap
  refine ⟨hcr, ?_⟩
  have hnot : ¬ (((s.undo).2.add input env).2.historyIndex <
      ((((s.undo).2.add input env).2.history.length : Int)) - 1) := by
    simpa [Store.canRedo] using hcr
  rw [redo_noop _ hnot]

/-- Witness for C3 on a concrete two-add store. -/
theorem c3_witness :
    (applyOps Store.init [Op.add {} envC, Op.add {} envC]).canUndo = true ∧
    ((((applyOps Store.init [Op.add {} envC, Op.add {} envC]).undo).2.add {} envC).2.canRedo = false ∧
      ((((applyOps Store.init [Op.add {} envC, Op.add {} envC]).undo).2.add {} envC).2.redo).1 = false) :=
  ⟨by decide,
    c3_add_after_undo_prunes_redo (applyOps Store.init [Op.add {} envC, Op.add {} envC])
      ⟨by decide, by decide, by decide, by decide, by decide, by decide, by decide⟩
      (by decide) {} envC⟩


/-! ## Claim C4: id assignment -/

/-- `add` hands out the current `nextId`. -/
theorem add_returns_nextId (s : Store) (input : TaskInput) (env : Env) :
    (s.add input env).1.id = s.nextId := rfl

/-- `nextId` ignores the notification log. -/
theorem nextId_events (t : Store) (ev : List String) :
    ({ t with events := ev } : Store).nextId = t.nextId := rfl

/-- `add` bumps `nextId` by one. -/
theorem add_nextId (s : Store) (input : TaskInput) (env : Env) :
    (s.add input env).2.nextId = s.nextId + 1 := by
  unfold Store.add
  rw [nextId_events, (saveState_fields _ _ _).2.2.2]

/-- `update` never touches `nextId`. -/
theorem update_nextId (s : Store) (id : Nat) (fields : Fields) (env : Env) :
    (s.update id fields env).2.nextId = s.nextId := by
  unfold Store.update
  cases hf : s.getById id with
  | none => rfl
  | some t => rw [nextId_events, (saveState_fields _ _ _).2.2.2]

/-- `delete` never touches `nextId`. -/
theorem delete_nextId (s : Store) (id : Nat) (env : Env) :
    (s.delete id env).2.nextId = s.nextId := by
  unfold Store.delete
  cases hf : s.getById id with
  | none => rfl
  | some t => rw [nextId_events, (saveState_fields _ _ _).2.2.2]

/-- One mutation never decreases `nextId`. -/
theorem applyOp_nextId_mono (s : Store) (op : Op) :
    s.nextId ≤ (applyOp s op).nextId := by
  cases op with
  | add input env =>
    show s.nextId ≤ (s.add input env).2.nextId
    rw [add_nextId]
    omega
  | update id fields env =>
    show s.nextId ≤ (s.update id fields env).2.nextId
    rw [update_nextId]
  | del id env =>
    show s.nextId ≤ (s.delete id env).2.nextId
    rw [delete_nextId]

/-- A mutation run never decreases `nextId`. -/
theorem applyOps_nextId_mono (ops : List Op) :
    ∀ s : Store, s.nextId ≤ (applyOps s ops).nextId := by
  induction ops with
  | nil => intro s; exact le_refl _
  | cons op rest ih =>
    intro s
    exact le_trans (applyOp_nextId_mono s op) (ih (applyOp s op))

/-- Every id assigned during an `add`/`update`/`delete` run stays strictly
below the final `nextId`. -/
theorem assigned_lt_nextId (ops : List Op) :
    ∀ (s : Store) (i : Nat), i ∈ assignedIds s ops → i < (applyOps s ops).nextId := by
  induction ops with
  | nil =>
    intro s i hi
    simp [assignedIds] at hi
  | cons op rest ih =>
    intro s i hi
    cases op with
    | add input env =>
      have hi2 : i = s.nextId ∨ i ∈ assignedIds (applyOp s (Op.add input env)) rest := by
        simpa [assignedIds, add_returns_nextId] using hi
      rcases hi2 with rfl | h2
      · have hstep : (applyOp s (Op.add input env)).nextId = s.nextId + 1 :=
          add_nextId s input env
        have hrest := applyOps_nextId_mono rest (applyOp s (Op.add input env))
        show s.nextId < (applyOps (applyOp s (Op.add input env)) rest).nextId
        omega
      · exact ih _ i h2
    | update id fields env =>
      have h2 : i ∈ assignedIds (applyOp s (Op.update id fields env)) rest := by
        simpa [assignedIds] using hi
      exact ih _ i h2
    | del id env =>
      have h2 : i ∈ assignedIds (applyOp s (Op.del id env)) rest := by
        simpa [assignedIds] using hi
      exact ih _ i h2

/-- Counterexample to C4: with `undo` in the session, ids ARE reused.
After `add; add; undo`, the restored snapshot also restores `nextId`, so
the next `add` hands out id 2 again even though the second `add` had
already assigned id 2 in the same session. -/
theorem c4_counterexample :
    ((((Store.init.add {} envC).2.add {} envC).2.undo).2.add {} envC).1.id = 2 ∧
    ((Store.init.add {} envC).2.add {} envC).1.id = 2 := by
  decide

/-- C4 amended: within a session consisting of `add`/`update`/`delete` only
(no `undo`/`redo`/import, which restore `nextId` from a snapshot), every
`add` returns an id strictly greater than every id previously assigned in
the session; in particular ids are never reused and deleting the maximal
id does not free it. -/
theorem c4_amended_ids_strictly_increase (ops : List Op) (input : TaskInput)
    (env : Env) (i : Nat) (hi : i ∈ assignedIds Store.init ops) :
    i < ((applyOps Store.init ops).add input env).1.id := by
  rw [add_returns_nextId]
  exact assigned_lt_nextId ops Store.init i hi

/-- Witness for the amended C4: delete the maximal id, then add. -/
theorem c4_witness :
    2 ∈ assignedIds Store.init
        [Op.add {} envC, Op.add {} envC, Op.del 2 envC] ∧
    2 < ((applyOps Store.init
        [Op.add {} envC, Op.add {} envC, Op.del 2 envC]).add {} envC).1.id :=
  ⟨by decide,
    c4_amended_ids_strictly_increase
      [Op.add {} envC, Op.add {} envC, Op.del 2 envC] {} envC 2 (by decide)⟩

/-! ## Claim C5: progress is stored unclamped -/

/-- Counterexample to C5: `add` with progress 150 stores 150; nothing clamps
it into [0, 100]. -/
theorem c5_counterexample :
    (Store.init.add { progress := some 150 } envC).1.progress = 150 ∧
    ¬ (Store.init.add { progress := some 150 } envC).1.progress ≤ 100 ∧
    ((Store.init.add { progress := some 150 } envC).2.getById 1).map
      Task.progress = some 150 := by
  decide

/-- C5 amended: `add` and `update` are total (never throw) and store the
supplied progress value unchanged; out-of-range values are not clamped
(`add` substitutes 0 only for an absent or zero progress, via `||`). -/
theorem c5_amended_progress_unclamped (s : Store) (input : TaskInput)
    (fields : Fields) (id : Nat) (env : Env) (p : Int)
    (hin : input.progress = some p) (hf : fields.progress = some p) :
    (s.add input env).1.progress = p ∧
    ((s.getById id).isSome = true →
      ((s.update id fields env).1).map Task.progress = some p) := by
  constructor
  · show jsOrI input.progress 0 = p
    rw [hin]
    unfold jsOrI
    rcases eq_or_ne p 0 with hp | hp
    · simp [hp]
    · simp [hp]
  · intro hsome
    obtain ⟨t, ht⟩ := Option.isSome_iff_exists.mp hsome
    unfold Store.update
    rw [ht]
    show some (applyFields s.types fields t).progress = some p
    unfold applyFields
    split
    · show some (fields.progress.getD t.progress) = some p
      rw [hf]
      rfl
    · show some (fields.progress.getD t.progress) = some p
      rw [hf]
      rfl

/-- Witness for the amended C5 at progress 150. -/
theorem c5_witness :
    ((Store.init.add {} envC).2.getById 1).isSome = true ∧
    ((Store.init.add {} envC).2.add { progress := some 150 } envC).1.progress = 150 ∧
    (((Store.init.add {} envC).2.update 1 { progress := some 150 } envC).1).map
      Task.progress = some 150 := by
  have h := c5_amended_progress_unclamped (Store.init.add {} envC).2
    { progress := some 150 } { progress := some 150 } 1 envC 150 rfl rfl
  exact ⟨by decide, h.1, h.2 (by decide)⟩

/-! ## Claim C6: a throwing subscriber aborts the fan-out -/

/-- Counterexample to C6: with subscribers `[0 (throws), 1]`, the exception
from subscriber 0 propagates out of `forEach`, so subscriber 1 — registered
at the start of the dispatch — is never invoked. -/
theorem c6_counterexample :
    (notifyFanout [{ id := 0, throws := true }, { id := 1, throws := false }]).1 =
      [{ id := 0, throws := true }] ∧
    ({ id := 1, throws := false } : Subscriber) ∉
      (notifyFanout [{ id := 0, throws := true }, { id := 1, throws := false }]).1 := by
  decide

/-- The fan-out stops at the first throwing subscriber: everyone before it
(and the throwing one itself) runs, everyone after it does not, and the
exception escapes. -/
theorem fanout_stops (c : Subscriber) (hc : c.throws = true) (post : List Subscriber) :
    ∀ pre : List Subscriber, (∀ x ∈ pre, x.throws = false) →
      notifyFanout (pre ++ c :: post) = (pre ++ [c], true) := by
  intro pre
  induction pre with
  | nil =>
    intro _
    simp [notifyFanout, hc]
  | cons x xs ih =>
    intro hpre
    have hx : x.throws = false := hpre x (by simp)
    have ihx := ih (fun y hy => hpre y (by simp [hy]))
    simp [notifyFanout, hx, ihx]

/-- When no subscriber throws, all of them run and no exception escapes. -/
theorem fanout_all (subs : List Subscriber) :
    (∀ x ∈ subs, x.throws = false) → notifyFanout subs = (subs, false) := by
  induction subs with
  | nil =>
    intro _
    simp [notifyFanout]
  | cons x xs ih =>
    intro hsubs
    have hx : x.throws = false := hsubs x (by simp)
    have ihx := ih (fun y hy => hsubs y (by simp [hy]))
    simp [notifyFanout, hx, ihx]

/-- C6 amended: `notify` runs the subscriber callbacks in order with no
`try`/`catch`, so the subscribers before the first throwing one are invoked,
the throwing one is invoked, everyone after it is skipped and the error
propagates to the mutating caller; when nobody throws, all subscribers run. -/
theorem c6_amended_fanout (pre : List Subscriber) (c : Subscriber)
    (post : List Subscriber) (hpre : ∀ x ∈ pre, x.throws = false)
    (hc : c.throws = true) :
    notifyFanout (pre ++ c :: post) = (pre ++ [c], true) ∧
    (∀ subs : List Subscriber,
      (∀ x ∈ subs, x.throws = false) → notifyFanout subs = (subs, false)) :=
  ⟨fanout_stops c hc post pre hpre, fanout_all⟩

/-- Witness for the amended C6. -/
theorem c6_witness :
    (∀ x ∈ [({ id := 5, throws := false } : Subscriber)], x.throws = false) ∧
    ({ id := 6, throws := true } : Subscriber).throws = true ∧
    (notifyFanout ([{ id := 5, throws := false }] ++
        { id := 6, throws := true } :: [{ id := 7, throws := false }]) =
      ([{ id := 5, throws := false }, { id := 6, throws := true }], true) ∧
    (∀ subs : List Subscriber,
      (∀ x ∈ subs, x.throws = false) → notifyFanout subs = (subs, false))) :=
  ⟨by decide, rfl,
    c6_amended_fanout [{ id := 5, throws := false }] { id := 6, throws := true }
      [{ id := 7, throws := false }] (by decide) rfl⟩


/-! ## Claim C7: the critical-path heuristic -/

/-- Membership in a `Set.add` step. -/
theorem mem_addSet {l : List Nat} {x y : Nat} :
    y ∈ addSet l x ↔ y ∈ l ∨ y = x := by
  unfold addSet
  split
  · rename_i hx
    constructor
    · exact Or.inl
    · rintro (hy | rfl)
      · exact hy
      · exact hx
  · simp

/-- Membership after the high-priority pass. -/
theorem mem_foldl_highStep (data : List Task) :
    ∀ (init : List Nat) (x : Nat),
      x ∈ data.foldl highStep init ↔
        x ∈ init ∨ ∃ t ∈ data, t.priority = "high" ∧ t.id = x := by
  induction data with
  | nil =>
    intro init x
    simp
  | cons t ts ih =>
    intro init x
    rw [List.foldl_cons, ih]
    unfold highStep
    by_cases hp : t.priority = "high"
    · rw [if_pos hp, mem_addSet]
      constructor
      · rintro ((hx | rfl) | ⟨u, hu, hup, hux⟩)
        · exact Or.inl hx
        · exact Or.inr ⟨t, List.mem_cons_self t ts, hp, rfl⟩
        · exact Or.inr ⟨u, List.mem_cons_of_mem t hu, hup, hux⟩
      · rintro (hx | ⟨u, hu, hup, hux⟩)
        · exact Or.inl (Or.inl hx)
        · rcases List.mem_cons.mp hu with rfl | hu2
          · exact Or.inl (Or.inr hux.symm)
          · exact Or.inr ⟨u, hu2, hup, hux⟩
    · rw [if_neg hp]
      constructor
      · rintro (hx | ⟨u, hu, hup, hux⟩)
        · exact Or.inl hx
        · exact Or.inr ⟨u, List.mem_cons_of_mem t hu, hup, hux⟩
      · rintro (hx | ⟨u, hu, hup, hux⟩)
        · exact Or.inl hx
        · rcases List.mem_cons.mp hu with rfl | hu2
          · exact absurd hup hp
          · exact Or.inr ⟨u, hu2, hup, hux⟩

/-- Membership after walking one dependencies list. -/
theorem mem_foldl_depRef (data : List Task) (deps : List Nat) :
    ∀ (acc : List Nat) (x : Nat),
      x ∈ deps.foldl (depRef data) acc ↔
        x ∈ acc ∨ (x ∈ deps ∧ ∃ u ∈ data, u.id = x) := by
  induction deps with
  | nil =>
    intro acc x
    simp
  | cons d ds ih =>
    intro acc x
    rw [List.foldl_cons, ih]
    unfold depRef
    cases hf : data.find? (fun u => u.id = d) with
    | none =>
      have hnone : ∀ u ∈ data, u.id ≠ d := by
        intro u hu
        have := List.find?_eq_none.mp hf u hu
        simpa using this
      constructor
      · rintro (hx | ⟨hxd, hex⟩)
        · exact Or.inl hx
        · exact Or.inr ⟨List.mem_cons_of_mem d hxd, hex⟩
      · rintro (hx | ⟨hxd, u, hu, hux⟩)
        · exact Or.inl hx
        · rcases List.mem_cons.mp hxd with rfl | h2
          · exact absurd hux (hnone u hu)
          · exact Or.inr ⟨h2, u, hu, hux⟩
    | some dt =>
      have hdt : dt.id = d := by
        have := List.find?_some hf
        simpa using this
      have hdtmem : dt ∈ data := List.mem_of_find?_eq_some hf
      rw [mem_addSet]
      constructor
      · rintro ((hx | rfl) | ⟨hxd, hex⟩)
        · exact Or.inl hx
        · refine Or.inr ⟨?_, dt, hdtmem, rfl⟩
          rw [hdt]
          exact List.mem_cons_self d ds
        · exact Or.inr ⟨List.mem_cons_of_mem d hxd, hex⟩
      · rintro (hx | ⟨hxd, u, hu, hux⟩)
        · exact Or.inl (Or.inl hx)
        · rcases List.mem_cons.mp hxd with rfl | h2
          · exact Or.inl (Or.inr hdt.symm)
          · exact Or.inr ⟨h2, u, hu, hux⟩

/-- Membership after the dependency pass over all tasks. -/
theorem mem_foldl_depsOfTask (data : List Task) (own : List Task) :
    ∀ (init : List Nat) (x : Nat),
      x ∈ own.foldl (depsOfTask data) init ↔
        x ∈ init ∨ ∃ t ∈ own, x ∈ t.dependencies ∧ ∃ u ∈ data, u.id = x := by
  induction own with
  | nil =>
    intro init x
    simp
  | cons t ts ih =>
    intro init x
    rw [List.foldl_cons, ih]
    unfold depsOfTask
    rw [mem_foldl_depRef]
    constructor
    · rintro ((hx | ⟨hdep, hex⟩) | ⟨u, hu, hud, hex⟩)
      · exact Or.inl hx
      · exact Or.inr ⟨t, List.mem_cons_self t ts, hdep, hex⟩
      · exact Or.inr ⟨u, List.mem_cons_of_mem t hu, hud, hex⟩
    · rintro (hx | ⟨u, hu, hud, hex⟩)
      · exact Or.inl (Or.inl hx)
      · rcases List.mem_cons.mp hu with rfl | h2
        · exact Or.inl (Or.inr ⟨hud, hex⟩)
        · exact Or.inr ⟨u, h2, hud, hex⟩

/-- The set computed by `calculateCriticalPath`, characterised: an id is
critical exactly when it belongs to a high-priority task or is an existing
task referenced by some dependencies list. -/
theorem mem_criticalOf (data : List Task) (x : Nat) :
    x ∈ criticalOf data ↔
      (∃ t ∈ data, t.id = x ∧ t.priority = "high") ∨
      (∃ t ∈ data, x ∈ t.dependencies ∧ ∃ u ∈ data, u.id = x) := by
  unfold criticalOf
  rw [mem_foldl_depsOfTask, mem_foldl_highStep]
  constructor
  · rintro ((h0 | ⟨t, ht, hp, hid⟩) | hdeps)
    · simp at h0
    · exact Or.inl ⟨t, ht, hid, hp⟩
    · exact Or.inr hdeps
  · rintro (⟨t, ht, hid, hp⟩ | hdeps)
    · exact Or.inl (Or.inr ⟨t, ht, hp, hid⟩)
    · exact Or.inr hdeps

/-- C7: `calculateCriticalPath` returns exactly the ids of high-priority
tasks together with the ids of existing tasks referenced in some
dependencies list (the OR of the two conditions); it pushes no history
snapshot and sends no notification (its only effect is overwriting
`criticalTasks`), and a second call returns the same ids and leaves the
store exactly as after the first call. -/
theorem c7_criticalPath_heuristic (s : Store) :
    (∀ i, i ∈ (s.calculateCriticalPath).1 ↔
      ((∃ t ∈ s.data, t.id = i ∧ t.priority = "high") ∨
       (∃ t ∈ s.data, i ∈ t.dependencies ∧ ∃ u ∈ s.data, u.id = i))) ∧
    (s.calculateCriticalPath).2.history = s.history ∧
    (s.calculateCriticalPath).2.events = s.events ∧
    (s.calculateCriticalPath).2 = { s with criticalTasks := (s.calculateCriticalPath).1 } ∧
    (s.calculateCriticalPath).2.calculateCriticalPath = s.calculateCriticalPath :=
  ⟨fun i => mem_criticalOf s.data i, rfl, rfl, rfl, rfl⟩


/-! ## Claim C8: unknown ids are silent no-ops -/

/-- C8: for an id not present in the task list, `update` and `delete` both
return `null` and leave the store completely unchanged — same task list,
same history and cursor, and no notification. -/
theorem c8_unknown_id_noop (s : Store) (id : Nat) (fields : Fields) (env : Env)
    (h : ∀ t ∈ s.data, t.id ≠ id) :
    s.update id fields env = (none, s) ∧ s.delete id env = (none, s) := by
  have hf : s.getById id = none := by
    unfold Store.getById
    rw [List.find?_eq_none]
    intro t ht
    simpa using h t ht
  constructor
  · unfold Store.update
    rw [hf]
  · unfold Store.delete
    rw [hf]

/-- Witness for C8 on a one-task store and the absent id 99. -/
theorem c8_witness :
    (∀ t ∈ ((Store.init.add {} envC).2).data, t.id ≠ 99) ∧
    ((Store.init.add {} envC).2.update 99 {} envC =
      (none, (Store.init.add {} envC).2) ∧
    (Store.init.add {} envC).2.delete 99 envC =
      (none, (Store.init.add {} envC).2)) :=
  ⟨by decide, c8_unknown_id_noop (Store.init.add {} envC).2 99 {} envC (by decide)⟩

/-! ## Claim C9: the tick interval step function -/

/-- C9: `chooseTickInterval` is the documented step function, including the
boundary values 480, 1440 and 20000. -/
theorem c9_chooseTickInterval (m : Int) :
    (m ≤ 480 → chooseTickInterval m = 30) ∧
    (480 < m → m ≤ 1440 → chooseTickInterval m = 60) ∧
    (1440 < m → m ≤ 2880 → chooseTickInterval m = 120) ∧
    (2880 < m → m ≤ 10080 → chooseTickInterval m = 720) ∧
    (10080 < m → chooseTickInterval m = 1440) ∧
    chooseTickInterval 480 = 30 ∧
    chooseTickInterval 1440 = 60 ∧
    chooseTickInterval 20000 = 1440 := by
  refine ⟨?_, ?_, ?_, ?_, ?_, by decide, by decide, by decide⟩ <;>
    (intros; unfold chooseTickInterval; split_ifs <;> omega)

/-- Witness for C9 in the 12-hour band. -/
theorem c9_witness :
    ((2880 : Int) < 9000 ∧ (9000 : Int) ≤ 10080) ∧
    chooseTickInterval 9000 = 720 :=
  ⟨⟨by decide, by decide⟩,
    (c9_chooseTickInterval 9000).2.2.2.1 (by decide) (by decide)⟩

/-! ## Claim C10: import resets the history to a single snapshot -/

/-- `saveState` on a store whose history was just reset to empty with
cursor `-1` produces exactly one snapshot with the cursor on it. -/
theorem saveState_of_reset (t : Store) (d : String) (n : Nat)
    (hh : t.history = []) (hi : t.historyIndex = -1) (hm : 0 < t.maxHistory) :
    t.saveState d n =
      { t with history := [{ state := t.coreState, description := d, timestamp := n }],
               historyIndex := 0,
               events := t.events ++ ["history-change"] } := by
  have h2 : ¬ (t.maxHistory < 1) := by omega
  unfold Store.saveState
  rw [hh, hi]
  norm_num
  omega

/-- `importApply` does not touch the history machinery. -/
theorem importApply_proj (s : Store) (imp : ImportBlob) :
    (s.importApply imp).maxHistory = s.maxHistory ∧
    (s.importApply imp).events = s.events := by
  obtain ⟨pn, ty, da⟩ := imp
  unfold Store.importApply
  rcases pn with _ | p <;> rcases ty with _ | ty <;> rcases da with _ | da <;>
    (try dsimp only) <;> (try split_ifs) <;> exact ⟨rfl, rfl⟩

/-- The history facts after the reset-then-save tail of `importData`. -/
theorem import_core (t : Store) (d : String) (n : Nat) (hm : 0 < t.maxHistory) :
    (({ t with history := [], historyIndex := -1 } : Store).saveState d n).history.length = 1 ∧
    (({ t with history := [], historyIndex := -1 } : Store).saveState d n).historyIndex = 0 ∧
    (({ t with history := [], historyIndex := -1 } : Store).saveState d n).history.map HistoryEntry.state =
      [(({ t with history := [], historyIndex := -1 } : Store).saveState d n).coreState] ∧
    (({ t with history := [], historyIndex := -1 } : Store).saveState d n).canUndo = false ∧
    (({ t with history := [], historyIndex := -1 } : Store).saveState d n).canRedo = false := by
  rw [saveState_of_reset ({ t with history := [], historyIndex := -1 } : Store) d n rfl rfl hm]
  exact ⟨rfl, rfl, rfl, rfl, rfl⟩

/-- C10: every `importData` call on this path returns `true` and replaces
the whole undo/redo history with a single snapshot of the imported state:
one entry, cursor at 0, and both `canUndo` and `canRedo` false — the
pre-import history is gone. -/
theorem c10_import_resets_history (s : Store) (imp : ImportBlob) (env : Env)
    (hm : 0 < s.maxHistory) :
    (s.importData imp env).1 = true ∧
    (s.importData imp env).2.history.length = 1 ∧
    (s.importData imp env).2.historyIndex = 0 ∧
    (s.importData imp env).2.history.map HistoryEntry.state =
      [(s.importData imp env).2.coreState] ∧
    (s.importData imp env).2.canUndo = false ∧
    (s.importData imp env).2.canRedo = false := by
  have hm2 : 0 < (s.importApply imp).maxHistory := by
    rw [(importApply_proj s imp).1]
    exact hm
  obtain ⟨h1, h2, h3, h4, h5⟩ :=
    import_core (s.importApply imp) "Импорт данных" env.now hm2
  exact ⟨rfl, h1, h2, h3, h4, h5⟩

/-- A one-task import blob used by the C10 witness. -/
def impW : ImportBlob :=
  { data := some [{ id := 9, type := "", task := "t", start := "s",
                    end_ := "e", progress := 1, priority := "medium",
                    milestone := false, owner := "", dependencies := [],
                    color := "#5da7ff" }] }

/-- Witness for C10: importing a one-task blob over a store that already
has undo history. -/
theorem c10_witness :
    0 < ((Store.init.add {} envC).2.add {} envC).2.maxHistory ∧
    ((((Store.init.add {} envC).2.add {} envC).2.importData impW envC).1 = true ∧
      (((Store.init.add {} envC).2.add {} envC).2.importData impW envC).2.history.length = 1 ∧
      (((Store.init.add {} envC).2.add {} envC).2.importData impW envC).2.historyIndex = 0 ∧
      (((Store.init.add {} envC).2.add {} envC).2.importData impW envC).2.history.map HistoryEntry.state =
        [(((Store.init.add {} envC).2.add {} envC).2.importData impW envC).2.coreState] ∧
      (((Store.init.add {} envC).2.add {} envC).2.importData impW envC).2.canUndo = false ∧
      (((Store.init.add {} envC).2.add {} envC).2.importData impW envC).2.canRedo = false) :=
  ⟨by decide,
    c10_import_resets_history ((Store.init.add {} envC).2.add {} envC).2 impW envC (by decide)⟩


end GanttApp
